import Mathlib

/-!
Shallow embedding of the merge / dedup / storage / aggregation core of the
akropolis weekly social media repository (storage.py, transform.py,
workflow_manager.py, dashboard.py, summary_generator.py), together with
theorems settling the frozen claims about it.

DataFrames are modelled as a column list plus a list of rows, a row being an
association list from column name to cell value.  A cell value is missing
(NaN / pd.NA), a string, or a number; exact rationals stand in for the
float dtype, and the special float values NaN and plus/minus infinity are
modelled explicitly where the float semantics matters (transform.py).
-/

/-- A cell value of a pandas DataFrame as this code base uses it: missing
(NaN / pd.NA), a string, or a number. -/
inductive PVal where
  | na : PVal
  | str : String → PVal
  | num : ℚ → PVal
deriving DecidableEq, Repr

/-- A row: association list from column name to value.  A column absent from
the list reads as `PVal.na`, matching a pandas row viewed through a frame
whose column union is wider than the frame the row came from. -/
abbrev PRow := List (String × PVal)

/-- Read the cell of column `c` (first entry wins; missing reads as NA). -/
def rowGet : PRow → String → PVal
  | [], _ => .na
  | (k, v) :: r, c => if k = c then v else rowGet r c

/-- Does the row carry an entry for column `c`. -/
def rowHas : PRow → String → Bool
  | [], _ => false
  | (k, _) :: r, c => k = c || rowHas r c

/-- Replace the value of every entry of column `c`. -/
def replaceAll : PRow → String → PVal → PRow
  | [], _, _ => []
  | (k, w) :: r, c, v => (if k = c then (c, v) else (k, w)) :: replaceAll r c v

/-- Write the cell of column `c`: replace every entry of that column when one
exists, append the entry otherwise. -/
def rowSet (r : PRow) (c : String) (v : PVal) : PRow :=
  if rowHas r c then replaceAll r c v
  else r ++ [(c, v)]

/-- A pandas DataFrame: its column list and its rows. -/
structure DataFrame where
  cols : List String
  rows : List PRow
deriving DecidableEq, Repr

/-- pandas `df.empty`: true when the frame has no rows or no columns. -/
def DataFrame.empty (df : DataFrame) : Bool :=
  df.rows.isEmpty || df.cols.isEmpty

/-- `pd.DataFrame()`. -/
def emptyDF : DataFrame := ⟨[], []⟩

/-- `config.DEDUP_KEYS`. -/
def DEDUP_KEYS : List String := ["post_id"]

/-- pandas `astype("string")` on one cell: `pd.NA` stays missing, strings
stay as they are, numbers print. -/
def valToString : PVal → PVal
  | .na => .na
  | .str s => .str s
  | .num q => .str (toString q)

/-- storage.py lines 71-74: `df[key] = pd.NA` when the dedup key column is
absent from the frame. -/
def addKeyColumn (df : DataFrame) (k : String) : DataFrame :=
  if k ∈ df.cols then df
  else { cols := df.cols ++ [k], rows := df.rows.map (fun r => rowSet r k .na) }

/-- The per-row effect of `df[key] = df[key].astype("string")`. -/
def castCell (r : PRow) (k : String) : PRow :=
  rowSet r k (valToString (rowGet r k))

/-- storage.py line 75: `df[key] = df[key].astype("string")`. -/
def castKeyColumn (df : DataFrame) (k : String) : DataFrame :=
  { df with rows := df.rows.map (fun r => castCell r k) }

/-- The body of the `for key in keys` loop of `deduplicate_posts`: ensure
the key column exists, then cast it to string dtype. -/
def ensureKey (df : DataFrame) (k : String) : DataFrame :=
  castKeyColumn (addKeyColumn df k) k

/-- The tuple of key cells `drop_duplicates(subset=keys)` compares on. -/
def keyTuple (keys : List String) (r : PRow) : List PVal :=
  keys.map (fun k => rowGet r k)

/-- `drop_duplicates(subset=keys, keep="first")`: keep a row iff its key
tuple has not occurred earlier in the input (pandas treats missing key
values as equal to each other here). -/
def dropDupFirst (keys : List String) : List PRow → List (List PVal) → List PRow
  | [], _ => []
  | r :: rs, seen =>
    if keyTuple keys r ∈ seen then dropDupFirst keys rs seen
    else r :: dropDupFirst keys rs (keyTuple keys r :: seen)

/-- storage.py `deduplicate_posts` (the `keys = None` default is resolved to
`config.DEDUP_KEYS` by the caller). -/
def deduplicate_posts (df : DataFrame) (keys : List String) : DataFrame :=
  if df.empty then df
  else
    let df2 := keys.foldl ensureKey df
    { df2 with rows := dropDupFirst keys df2.rows [] }

/-- `pd.concat([a, b], ignore_index=True, sort=False)`: rows of `a` then rows
of `b`; the column list is the columns of `a` followed by the columns of `b`
not already present. -/
def concatDF (a b : DataFrame) : DataFrame :=
  { cols := a.cols ++ b.cols.filter (fun c => decide (c ∉ a.cols)),
    rows := a.rows ++ b.rows }

/-- A file path, split the way the pathlib accessors of the source use it:
directory components, stem, and suffix (the suffix keeps its dot). -/
structure FPath where
  dir : List String
  stem : String
  ext : String
deriving DecidableEq, Repr

/-- What a stored file can hold here: an Excel workbook serializing a
DataFrame (`FileData.excel` carries the frame as `pd.read_excel` yields it),
or bytes no Excel reader accepts. -/
inductive FileData where
  | excel : DataFrame → FileData
  | corrupt : ℕ → FileData
deriving DecidableEq, Repr

/-- Filesystem state: the directories that exist and the files with their
contents. -/
structure FS where
  dirs : List (List String)
  files : List (FPath × FileData)
deriving DecidableEq, Repr

def FS.lookup (fs : FS) (p : FPath) : Option FileData :=
  List.lookup p fs.files

/-- Overwrite or create the file at `p`. -/
def FS.setFile (fs : FS) (p : FPath) (d : FileData) : FS :=
  { fs with files := (p, d) :: fs.files.filter (fun q => decide (q.1 ≠ p)) }

/-- Every prefix of a component list: the ancestor chain of a directory. -/
def prefixesOf : List String → List (List String)
  | [] => [[]]
  | x :: xs => [] :: (prefixesOf xs).map (fun t => x :: t)

/-- `path.parent.mkdir(parents=True, exist_ok=True)`: the directory of the
target and all its ancestors come into existence. -/
def FS.mkdirParents (fs : FS) (d : List String) : FS :=
  { fs with dirs := fs.dirs ++ (prefixesOf d).filter (fun q => decide (q ∉ fs.dirs)) }

/-- storage.py `load_excel`: empty frame when the path does not exist, and
also (via the `except` clause around `pd.read_excel`) when the file exists
but cannot be read as an Excel workbook. -/
def load_excel (p : FPath) (fs : FS) : DataFrame :=
  match fs.lookup p with
  | some (.excel df) => df
  | some (.corrupt _) => emptyDF
  | none => emptyDF

/-- storage.py `save_excel`: create the parent directories of the target,
then write the frame there. -/
def save_excel (df : DataFrame) (p : FPath) (fs : FS) : FS :=
  (fs.mkdirParents p.dir).setFile p (.excel df)

/-- The backup target `path.parent / "backups" / (stem_backup_timestamp + suffix)`
of storage.py line 130. -/
def backupPath (p : FPath) (timestamp : String) : FPath :=
  { dir := p.dir ++ ["backups"], stem := p.stem ++ "_backup_" ++ timestamp,
    ext := p.ext }

/-- storage.py `backup_existing_data`.  `shutil.copy2` needs the directory of
its target to exist already; no code path of the repository ever creates
`<parent>/backups`, and when it is absent the copy raises FileNotFoundError,
which the `except` clause swallows (logged, non-fatal), leaving the
filesystem unchanged. -/
def backup_existing_data (timestamp : String) (p : FPath) (fs : FS) : FS :=
  match fs.lookup p with
  | none => fs
  | some d =>
    if (p.dir ++ ["backups"]) ∈ fs.dirs then
      fs.setFile (backupPath p timestamp) d
    else fs

/-- storage.py `save_with_backup`: back up whatever is at `path`, then save
the new frame there (the summary printing touches no state). -/
def save_with_backup (df : DataFrame) (p : FPath) (timestamp : String) (fs : FS) : FS :=
  save_excel df p (backup_existing_data timestamp p fs)

/-- The configured master file `./data/facebook_master_file.xlsx`. -/
def masterPath : FPath := ⟨["data"], "facebook_master_file", ".xlsx"⟩

/-- The runtime errors the embedded fragment can raise. -/
inductive PyErr where
  | attributeError : PyErr
  | valueError : PyErr
  | fileNotFound : PyErr
deriving DecidableEq, Repr

/-- A Python argument bound to the `existing_path` parameter.  The language
is dynamically typed: workflow_manager.py line 52 passes a DataFrame where
storage.py expects a Path, so the embedding keeps both cases. -/
inductive PyArg where
  | path : FPath → PyArg
  | frame : DataFrame → PyArg
deriving DecidableEq, Repr

/-- `load_excel` applied to a dynamically typed argument: on a Path it is
`load_excel`; on a DataFrame the very first expression `path.exists()`
raises AttributeError (DataFrame has no attribute exists), outside the
try block, so nothing catches it. -/
def load_excel_dyn : PyArg → FS → Except PyErr DataFrame
  | .path p, fs => .ok (load_excel p fs)
  | .frame _, _ => .error .attributeError

/-- storage.py `merge_with_existing_data`.  The source loads the existing
data from `existing_path` (twice textually, once per branch); both loads are
the same pure read here. -/
def merge_with_existing_data (new_posts : DataFrame) (existing_path : PyArg)
    (fs : FS) : Except PyErr DataFrame :=
  if new_posts.empty then load_excel_dyn existing_path fs
  else
    match load_excel_dyn existing_path fs with
    | .error e => .error e
    | .ok existing_posts =>
      if existing_posts.empty then .ok new_posts
      else .ok (deduplicate_posts (concatDF existing_posts new_posts) DEDUP_KEYS)

/-- Digits of a numeric literal, most significant first. -/
def digitsToNat (cs : List Char) : Option ℕ :=
  if cs.isEmpty then none
  else cs.foldl (fun acc c =>
    match acc with
    | none => none
    | some n => if c.isDigit then some (10 * n + (c.toNat - 48)) else none)
    (some 0)

/-- Split a character list at the first dot. -/
def splitAtDot : List Char → List Char × Option (List Char)
  | [] => ([], none)
  | c :: rest =>
    if c = Char.ofNat 46 then ([], some rest)
    else
      let (a, b) := splitAtDot rest
      (c :: a, b)

/-- The numeric-literal strings `pd.to_numeric` accepts, restricted to plain
decimal literals with digits on both sides of an optional dot (the only
shapes this data ever holds); anything else coerces to NaN. -/
def parseRat (s : String) : Option ℚ :=
  let signed : Bool × List Char :=
    match s.data with
    | c :: rest => if c = Char.ofNat 45 then (true, rest) else (false, s.data)
    | [] => (false, [])
  let (ip, fp) := splitAtDot signed.2
  match fp with
  | none => (digitsToNat ip).map (fun n => if signed.1 then -(n : ℚ) else (n : ℚ))
  | some fpart =>
    match digitsToNat ip, digitsToNat fpart with
    | some n, some f =>
      let q : ℚ := (n : ℚ) + (f : ℚ) / ((10 : ℚ) ^ fpart.length)
      some (if signed.1 then -q else q)
    | _, _ => none

/-- `pd.to_numeric(x, errors="coerce").fillna(0)` on one cell: numbers stay,
numeric strings parse, everything else (and missing) becomes 0. -/
def pvalToQ0 : PVal → ℚ
  | .na => 0
  | .num q => q
  | .str s => (parseRat s).getD 0

/-- `astype(str)` on one cell (the Python `str()` of the value; a float NaN
prints as nan). -/
def pyStrOf : PVal → String
  | .str s => s
  | .num q => toString q
  | .na => "nan"

/-- `pd.read_excel` without a guard: raises when the file is absent or
unreadable. -/
def read_excel_strict (p : FPath) (fs : FS) : Except PyErr DataFrame :=
  match fs.lookup p with
  | some (.excel df) => .ok df
  | some (.corrupt _) => .error .valueError
  | none => .error .fileNotFound

/-- `df[c] = v` with a scalar: sets the cell in every row, creating the
column when absent. -/
def setColumn (df : DataFrame) (c : String) (v : PVal) : DataFrame :=
  { cols := if c ∈ df.cols then df.cols else df.cols ++ [c],
    rows := df.rows.map (fun r => rowSet r c v) }

/-- `df[c] = pd.to_numeric(df[c], errors="coerce").fillna(0)`. -/
def coerceNumColumn (df : DataFrame) (c : String) : DataFrame :=
  { cols := if c ∈ df.cols then df.cols else df.cols ++ [c],
    rows := df.rows.map (fun r => rowSet r c (.num (pvalToQ0 (rowGet r c)))) }

/-- workflow_manager.py line 85: the weighted engagement recomputation over
the already-coerced counter columns. -/
def weightedTotalColumn (df : DataFrame) : DataFrame :=
  { cols := if "total_engagement" ∈ df.cols then df.cols
            else df.cols ++ ["total_engagement"],
    rows := df.rows.map (fun r =>
      rowSet r "total_engagement"
        (.num (pvalToQ0 (rowGet r "likes") * 1 + pvalToQ0 (rowGet r "comments") * 3
               + pvalToQ0 (rowGet r "shares") * 5))) }

/-- The enrichment columns written back after labeling. -/
def enrichmentCols : List String :=
  ["post_summary", "cluster_1", "cluster_2", "cluster_3"]

/-- Copy the enrichment cells of `src` into `dst`. -/
def copyEnrichment (dst src : PRow) : PRow :=
  enrichmentCols.foldl (fun r c => rowSet r c (rowGet src c)) dst

/-- `merged_df.loc[mask, enrichment] = labeled[enrichment]`: rows matching
the mask take the enrichment cells of the labeled rows, in order. -/
def applyLabels (mask : PRow → Bool) : List PRow → List PRow → List PRow
  | [], _ => []
  | r :: rs, ls =>
    if mask r then
      match ls with
      | l :: ls2 => copyEnrichment r l :: applyLabels mask rs ls2
      | [] => r :: applyLabels mask rs []
    else r :: applyLabels mask rs ls

/-- workflow_manager.py `append_new_data_to_master` for platform facebook,
with the GPT labeler as an external collaborator `label`.  Returns the success
flag, the rows flagged as new (needing labeling), and the updated
filesystem.  Line 52 of the source passes `(existing_df, new_df)` to
`merge_with_existing_data (new_posts, existing_path)` — the arguments are
swapped and `new_df` is a DataFrame where a Path is expected, so the call
raises AttributeError on every input; everything after it is dead code,
embedded here as written. -/
def append_new_data_to_master (new_data_path : FPath)
    (label : DataFrame → DataFrame) (fs : FS) :
    Except PyErr (Bool × List PRow × FS) :=
  if (fs.lookup new_data_path).isNone then .ok (false, [], fs)
  else
    match read_excel_strict new_data_path fs with
    | .error e => .error e
    | .ok new_df0 =>
      let new_df := setColumn new_df0 "platform" (.str "facebook")
      let existing_df :=
        if (fs.lookup masterPath).isSome then load_excel masterPath fs
        else emptyDF
      match merge_with_existing_data existing_df (.frame new_df) fs with
      | .error e => .error e
      | .ok merged =>
        let existing_ids := existing_df.rows.map (fun r => pyStrOf (rowGet r "post_id"))
        let mask : PRow → Bool := fun r =>
          decide (pyStrOf (rowGet r "post_id") ∉ existing_ids)
        let new_rows :=
          if existing_df.rows.length > 0 then merged.rows.filter mask
          else merged.rows
        let labeled := label { cols := merged.cols, rows := new_rows }
        let merged2 :=
          if new_rows.length > 0 ∧ existing_df.rows.length > 0 then
            { merged with rows := applyLabels mask merged.rows labeled.rows }
          else if new_rows.length > 0 then
            { merged with rows := applyLabels (fun _ => true) merged.rows labeled.rows }
          else merged
        let merged3 :=
          weightedTotalColumn (coerceNumColumn (coerceNumColumn
            (coerceNumColumn merged2 "likes") "comments") "shares")
        .ok (true, new_rows, save_excel merged3 masterPath fs)

/-- A float cell for the engagement arithmetic of transform.py: NaN, the two
infinities, or a finite value (exact rationals stand in for finite floats;
every case the theorems rest on is decided by the NA / zero / sign
structure, which floats represent exactly). -/
inductive PFloat where
  | nan : PFloat
  | posInf : PFloat
  | negInf : PFloat
  | num : ℚ → PFloat
deriving DecidableEq, Repr

/-- IEEE addition on the modelled cells. -/
def PFloat.add : PFloat → PFloat → PFloat
  | .nan, _ => .nan
  | _, .nan => .nan
  | .posInf, .negInf => .nan
  | .negInf, .posInf => .nan
  | .posInf, _ => .posInf
  | _, .posInf => .posInf
  | .negInf, _ => .negInf
  | _, .negInf => .negInf
  | .num a, .num b => .num (a + b)

/-- IEEE multiplication on the modelled cells. -/
def PFloat.mul : PFloat → PFloat → PFloat
  | .nan, _ => .nan
  | _, .nan => .nan
  | .posInf, .posInf => .posInf
  | .posInf, .negInf => .negInf
  | .negInf, .posInf => .negInf
  | .negInf, .negInf => .posInf
  | .posInf, .num b => if 0 < b then .posInf else if b < 0 then .negInf else .nan
  | .negInf, .num b => if 0 < b then .negInf else if b < 0 then .posInf else .nan
  | .num a, .posInf => if 0 < a then .posInf else if a < 0 then .negInf else .nan
  | .num a, .negInf => if 0 < a then .negInf else if a < 0 then .posInf else .nan
  | .num a, .num b => .num (a * b)

/-- IEEE division on the modelled cells: a nonzero finite value divided by
zero is a signed infinity, zero by zero is NaN. -/
def PFloat.div : PFloat → PFloat → PFloat
  | .nan, _ => .nan
  | _, .nan => .nan
  | .posInf, .posInf => .nan
  | .posInf, .negInf => .nan
  | .negInf, .posInf => .nan
  | .negInf, .negInf => .nan
  | .posInf, .num b => if 0 ≤ b then .posInf else .negInf
  | .negInf, .num b => if 0 ≤ b then .negInf else .posInf
  | .num _, .posInf => .num 0
  | .num _, .negInf => .num 0
  | .num a, .num b =>
    if b = 0 then (if a = 0 then .nan else if 0 < a then .posInf else .negInf)
    else .num (a / b)

/-- `.fillna(0)` on one cell: only NaN is replaced — infinities pass
through. -/
def PFloat.fillna0 : PFloat → PFloat
  | .nan => .num 0
  | x => x

/-- Round to nearest integer, ties to even (numpy rounding). -/
def roundHalfEven (q : ℚ) : ℤ :=
  let f := ⌊q⌋
  let r := q - f
  if r < 1 / 2 then f
  else if 1 / 2 < r then f + 1
  else if f % 2 = 0 then f else f + 1

/-- `.round(2)` on one cell; NaN and the infinities round to themselves. -/
def PFloat.round2 : PFloat → PFloat
  | .num q => .num ((roundHalfEven (q * 100) : ℚ) / 100)
  | x => x

/-- The engagement-relevant raw cells of a scraped row as they reach
`ensure_standard_columns` (string, numeric or missing). -/
structure RawEngRow where
  likes : PVal
  comments : PVal
  shares : PVal
  total_engagement : PVal
  engagement_rate : PVal
  reach : PVal
deriving DecidableEq, Repr

/-- The engagement-relevant columns of the frame entering
`ensure_standard_columns`; a false flag means the column is absent (the
matching row field is then meaningless). -/
structure RawEngTable where
  hasLikes : Bool
  hasComments : Bool
  hasShares : Bool
  hasTotal : Bool
  hasRate : Bool
  hasReach : Bool
  rows : List RawEngRow
deriving DecidableEq, Repr

/-- The engagement columns once the counters are numeric; same flag
convention. -/
structure EngRow where
  likes : PFloat
  comments : PFloat
  shares : PFloat
  total_engagement : PFloat
  engagement_rate : PFloat
  reach : PFloat
deriving DecidableEq, Repr

structure EngTable where
  hasLikes : Bool
  hasComments : Bool
  hasShares : Bool
  hasTotal : Bool
  hasRate : Bool
  hasReach : Bool
  rows : List EngRow
deriving DecidableEq, Repr

/-- A pre-existing numeric column carried into the float view (NaN for a
cell `pd.to_numeric` would not accept). -/
def pvalToFloat : PVal → PFloat
  | .na => .nan
  | .num q => .num q
  | .str s =>
    match parseRat s with
    | some q => .num q
    | none => .nan

/-- transform.py `ensure_standard_columns`, restricted to the engagement
columns (lines 87-96 and 139-149): the essential-column pruning drops
`reach`; each counter column is created as 0 when absent and otherwise
coerced with `pd.to_numeric(...).fillna(0)`; `total_engagement` is created
as the weighted sum `likes*1 + comments*3 + shares*5` only when the column
is absent, and kept untouched otherwise (carried through the float view
here — the pipeline overwrites it before ever reading it).  The remaining
lines of the source handle the textual columns, which these claims do not
touch. -/
def ensure_standard_columns_eng (t : RawEngTable) : EngTable :=
  { hasLikes := true, hasComments := true, hasShares := true,
    hasTotal := true, hasRate := t.hasRate, hasReach := false,
    rows := t.rows.map (fun r =>
      let l := if t.hasLikes then PFloat.num (pvalToQ0 r.likes) else .num 0
      let c := if t.hasComments then PFloat.num (pvalToQ0 r.comments) else .num 0
      let s := if t.hasShares then PFloat.num (pvalToQ0 r.shares) else .num 0
      { likes := l, comments := c, shares := s,
        total_engagement :=
          if t.hasTotal then pvalToFloat r.total_engagement
          else ((l.mul (.num 1)).add (c.mul (.num 3))).add (s.mul (.num 5)),
        engagement_rate :=
          if t.hasRate then pvalToFloat r.engagement_rate else .num 0,
        reach := .nan }) }

/-- transform.py `calculate_engagement_metrics`: when the three counter
columns are present, `total_engagement` becomes their plain (unweighted)
sum; when `reach` and `total_engagement` are present,
`engagement_rate = (total_engagement / reach * 100).fillna(0).round(2)`. -/
def calculate_engagement_metrics (t : EngTable) : EngTable :=
  let t1 :=
    if t.hasLikes && t.hasComments && t.hasShares then
      { t with hasTotal := true,
               rows := t.rows.map (fun r =>
                 { r with total_engagement := (r.likes.add r.comments).add r.shares }) }
    else t
  if t1.hasReach && t1.hasTotal then
    { t1 with hasRate := true,
              rows := t1.rows.map (fun r =>
                { r with engagement_rate :=
                    (((r.total_engagement.div r.reach).mul (.num 100)).fillna0).round2 }) }
  else t1

/-- The engagement-column view of `process_social_media_data` steps 3 and 6
(`ensure_standard_columns` then `calculate_engagement_metrics`): the steps
between them (brand normalization, content cleaning) do not touch these
columns, and the final step only filters rows by date. -/
def process_engagement (t : RawEngTable) : EngTable :=
  calculate_engagement_metrics (ensure_standard_columns_eng t)

/-- The columns of the master frame the week-over-week statistics read
(dashboard.py / summary_generator.py, after their numeric coercion and
weighted-engagement recomputation). -/
structure StatRow where
  brand : String
  post_id : String
  likes : ℚ
  comments : ℚ
  shares : ℚ
  total_engagement : ℚ
deriving DecidableEq, Repr

/-- One window of per-brand aggregates: distinct post count (`nunique`) and
the four sums. -/
structure WeekAgg where
  posts : ℕ
  engagement : ℚ
  likes : ℚ
  comments : ℚ
  shares : ℚ
deriving DecidableEq, Repr

/-- Select the rows of the given brands and aggregate them (a single-brand
selection `df[df.brand == b]` is the singleton-list case). -/
def aggregateWeek (brands : List String) (rows : List StatRow) : WeekAgg :=
  let sel := rows.filter (fun r => decide (r.brand ∈ brands))
  { posts := ((sel.map (fun r => r.post_id)).dedup).length,
    engagement := (sel.map (fun r => r.total_engagement)).sum,
    likes := (sel.map (fun r => r.likes)).sum,
    comments := (sel.map (fun r => r.comments)).sum,
    shares := (sel.map (fun r => r.shares)).sum }

/-- The five reported percentage changes. -/
structure ChangeStats where
  posts_change : ℚ
  engagement_change : ℚ
  likes_change : ℚ
  comments_change : ℚ
  shares_change : ℚ
deriving DecidableEq, Repr

/-- dashboard.py `calculate_comparison_stats` (lines 121-162): each change is
`(current - previous) / previous * 100` when `previous > 0` and otherwise 0,
with no case for a zero previous week and a positive current week. -/
def calculate_comparison_stats (current_df previous_df : List StatRow)
    (akropolis_brands : List String) : ChangeStats :=
  let c := aggregateWeek akropolis_brands current_df
  let p := aggregateWeek akropolis_brands previous_df
  { posts_change :=
      if (0 : ℚ) < p.posts then ((c.posts : ℚ) - p.posts) / p.posts * 100 else 0,
    engagement_change :=
      if 0 < p.engagement then (c.engagement - p.engagement) / p.engagement * 100 else 0,
    likes_change :=
      if 0 < p.likes then (c.likes - p.likes) / p.likes * 100 else 0,
    comments_change :=
      if 0 < p.comments then (c.comments - p.comments) / p.comments * 100 else 0,
    shares_change :=
      if 0 < p.shares then (c.shares - p.shares) / p.shares * 100 else 0 }

/-- dashboard.py per-brand performance tabs (lines 363-412): the three-way
rule, metric by metric. -/
def brand_tab_change_stats (df_current df_previous : List StatRow)
    (brand : String) : ChangeStats :=
  let c := aggregateWeek [brand] df_current
  let p := aggregateWeek [brand] df_previous
  { posts_change :=
      if (0 : ℚ) < p.posts then ((c.posts : ℚ) - p.posts) / p.posts * 100
      else if (0 : ℚ) < c.posts then 100 else 0,
    engagement_change :=
      if 0 < p.engagement then (c.engagement - p.engagement) / p.engagement * 100
      else if 0 < c.engagement then 100 else 0,
    likes_change :=
      if 0 < p.likes then (c.likes - p.likes) / p.likes * 100
      else if 0 < c.likes then 100 else 0,
    comments_change :=
      if 0 < p.comments then (c.comments - p.comments) / p.comments * 100
      else if 0 < c.comments then 100 else 0,
    shares_change :=
      if 0 < p.shares then (c.shares - p.shares) / p.shares * 100
      else if 0 < c.shares then 100 else 0 }

/-- summary_generator.py `get_brand_stats` (lines 75-125), restricted to the
five percentage changes (the remaining returned fields are content lists and
platform tallies). -/
def get_brand_stats (df_current_week df_previous_week : List StatRow)
    (brand_name : String) : ChangeStats :=
  let c := aggregateWeek [brand_name] df_current_week
  let p := aggregateWeek [brand_name] df_previous_week
  { posts_change :=
      if (0 : ℚ) < p.posts then ((c.posts : ℚ) - p.posts) / p.posts * 100
      else if (0 : ℚ) < c.posts then 100 else 0,
    engagement_change :=
      if 0 < p.engagement then (c.engagement - p.engagement) / p.engagement * 100
      else if 0 < c.engagement then 100 else 0,
    likes_change :=
      if 0 < p.likes then (c.likes - p.likes) / p.likes * 100
      else if 0 < c.likes then 100 else 0,
    comments_change :=
      if 0 < p.comments then (c.comments - p.comments) / p.comments * 100
      else if 0 < c.comments then 100 else 0,
    shares_change :=
      if 0 < p.shares then (c.shares - p.shares) / p.shares * 100
      else if 0 < c.shares then 100 else 0 }

/-- The three-way percentage-change rule in the words of the spec:
`(current - previous) / previous * 100` when `previous > 0`, exactly 100
when `previous == 0` and `current > 0`, and 0 when both are 0.  Stated from
the spec for comparison against the three implementation sites above. -/
def spec_pct_change (current previous : ℚ) : ℚ :=
  if 0 < previous then (current - previous) / previous * 100
  else if 0 < current then 100 else 0

/-- The spec rule applied to every metric of a pair of aggregates. -/
def spec_change_stats (c p : WeekAgg) : ChangeStats :=
  { posts_change := spec_pct_change c.posts p.posts,
    engagement_change := spec_pct_change c.engagement p.engagement,
    likes_change := spec_pct_change c.likes p.likes,
    comments_change := spec_pct_change c.comments p.comments,
    shares_change := spec_pct_change c.shares p.shares }

/-- dashboard.py `load_data` lines 96-97: the current window of a reference
end date, as a pair of inclusive day bounds (dates as serial day numbers;
`timedelta(days=n)` is subtraction of `n`). -/
def dashboard_current_window (end_date : ℤ) : ℤ × ℤ :=
  (end_date - 6, end_date)

/-- dashboard.py `load_data` lines 98-99: the previous window. -/
def dashboard_previous_window (end_date : ℤ) : ℤ × ℤ :=
  (end_date - 6 - 1 - 6, end_date - 6 - 1)

/-- summary_generator.py `load_and_filter_data` lines 52-53 (the reference
end date there is the run date). -/
def summary_current_window (end_date : ℤ) : ℤ × ℤ :=
  (end_date - 6, end_date)

/-- summary_generator.py `load_and_filter_data` lines 54-55. -/
def summary_previous_window (end_date : ℤ) : ℤ × ℤ :=
  (end_date - 6 - 1 - 6, end_date - 6 - 1)

/-- Serial day number of a Gregorian calendar date (days since 1970-01-01),
the standard civil-from-days correspondence; subtracting day numbers is
exactly `datetime.date` difference in days. -/
def daysFromCivil (y m d : ℕ) : ℤ :=
  let ys := if m ≤ 2 then y - 1 else y
  let era := ys / 400
  let yoe := ys - era * 400
  let mp := (m + 9) % 12
  let doy := (153 * mp + 2) / 5 + d - 1
  let doe := yoe * 365 + yoe / 4 - yoe / 100 + doy
  (era : ℤ) * 146097 + (doe : ℤ) - 719468

/-! Lemmas about rows and cells. -/

theorem rowGet_replaceAll_self (r : PRow) (c : String) (v : PVal)
    (h : rowHas r c = true) : rowGet (replaceAll r c v) c = v := by
  induction r with
  | nil => simp [rowHas] at h
  | cons p t ih =>
    rcases p with ⟨k, w⟩
    simp only [replaceAll]
    by_cases hk : k = c
    · rw [if_pos hk]
      simp [rowGet]
    · rw [if_neg hk]
      simp only [rowHas, Bool.or_eq_true, decide_eq_true_eq] at h
      rcases h with h | h
      · exact absurd h hk
      · simp only [rowGet, if_neg hk]
        exact ih h

theorem rowGet_replaceAll_ne (r : PRow) (c c2 : String) (v : PVal)
    (h : c ≠ c2) : rowGet (replaceAll r c v) c2 = rowGet r c2 := by
  induction r with
  | nil => simp [replaceAll]
  | cons p t ih =>
    rcases p with ⟨k, w⟩
    simp only [replaceAll]
    by_cases hk : k = c
    · subst hk
      rw [if_pos rfl]
      simp only [rowGet, if_neg h]
      rw [ih]
    · rw [if_neg hk]
      simp only [rowGet]
      by_cases hk2 : k = c2
      · simp [hk2]
      · simp only [if_neg hk2]
        exact ih

theorem rowHas_replaceAll (r : PRow) (c c2 : String) (v : PVal) :
    rowHas (replaceAll r c v) c2 = rowHas r c2 := by
  induction r with
  | nil => simp [replaceAll]
  | cons p t ih =>
    rcases p with ⟨k, w⟩
    simp only [replaceAll]
    by_cases hk : k = c
    · subst hk
      rw [if_pos rfl]
      simp only [rowHas, ih]
    · rw [if_neg hk]
      simp only [rowHas, ih]

theorem mem_replaceAll_entry (r : PRow) (c : String) (v : PVal) :
    ∀ p ∈ replaceAll r c v, p.1 = c → p.2 = v := by
  intro p hp hpc
  induction r with
  | nil => simp [replaceAll] at hp
  | cons q t ih =>
    rcases q with ⟨k, w⟩
    simp only [replaceAll, List.mem_cons] at hp
    rcases hp with hp | hp
    · by_cases hk : k = c
      · rw [if_pos hk] at hp
        rw [hp]
      · rw [if_neg hk] at hp
        rw [hp] at hpc
        exact absurd hpc hk
    · exact ih hp

theorem mem_replaceAll_ne (r : PRow) (c : String) (v : PVal) :
    ∀ p ∈ replaceAll r c v, p.1 ≠ c → p ∈ r := by
  intro p hp hpc
  induction r with
  | nil => simp [replaceAll] at hp
  | cons q t ih =>
    rcases q with ⟨k, w⟩
    simp only [replaceAll, List.mem_cons] at hp
    rcases hp with hp | hp
    · by_cases hk : k = c
      · rw [if_pos hk] at hp
        rw [hp] at hpc
        exact absurd rfl hpc
      · rw [if_neg hk] at hp
        rw [hp]
        exact List.mem_cons_self _ _
    · exact List.mem_cons_of_mem _ (ih hp)

theorem replaceAll_eq_self (r : PRow) (c : String) (v : PVal)
    (h : ∀ p ∈ r, p.1 = c → p.2 = v) : replaceAll r c v = r := by
  induction r with
  | nil => rfl
  | cons q t ih =>
    rcases q with ⟨k, w⟩
    have ht : replaceAll t c v = t :=
      ih (fun p hp => h p (List.mem_cons_of_mem _ hp))
    by_cases hk : k = c
    · have hw : w = v := h (k, w) (List.mem_cons_self _ _) hk
      simp [replaceAll, hk, hw, ht]
    · simp [replaceAll, hk, ht]

theorem rowHas_append (r s : PRow) (c : String) :
    rowHas (r ++ s) c = (rowHas r c || rowHas s c) := by
  induction r with
  | nil => simp [rowHas]
  | cons q t ih =>
    rcases q with ⟨k, w⟩
    simp [rowHas, ih, Bool.or_assoc]

theorem rowHas_false_forall (r : PRow) (c : String)
    (h : rowHas r c = false) : ∀ p ∈ r, p.1 ≠ c := by
  intro p hp
  induction r with
  | nil => simp at hp
  | cons q t ih =>
    rcases q with ⟨k, w⟩
    simp only [rowHas] at h
    rcases Bool.or_eq_false_iff.mp h with ⟨h1, h2⟩
    simp only [List.mem_cons] at hp
    rcases hp with hp | hp
    · rw [hp]
      exact of_decide_eq_false h1
    · exact ih h2 hp

theorem rowGet_append_self (r : PRow) (c : String) (v : PVal)
    (h : rowHas r c = false) : rowGet (r ++ [(c, v)]) c = v := by
  induction r with
  | nil => simp [rowGet]
  | cons q t ih =>
    rcases q with ⟨k, w⟩
    simp only [rowHas] at h
    rcases Bool.or_eq_false_iff.mp h with ⟨h1, h2⟩
    have hk : k ≠ c := of_decide_eq_false h1
    simp only [List.cons_append, rowGet, if_neg hk]
    exact ih h2

theorem rowGet_append_ne (r : PRow) (c c2 : String) (v : PVal)
    (h : c ≠ c2) : rowGet (r ++ [(c, v)]) c2 = rowGet r c2 := by
  induction r with
  | nil => simp [rowGet, if_neg h]
  | cons q t ih =>
    rcases q with ⟨k, w⟩
    by_cases hk : k = c2
    · simp [rowGet, hk]
    · simp only [List.cons_append, rowGet, if_neg hk]
      exact ih

theorem rowGet_rowSet_self (r : PRow) (c : String) (v : PVal) :
    rowGet (rowSet r c v) c = v := by
  unfold rowSet
  by_cases h : rowHas r c
  · rw [if_pos h]
    exact rowGet_replaceAll_self r c v h
  · rw [if_neg h]
    exact rowGet_append_self r c v (Bool.of_not_eq_true h ▸ rfl)

theorem rowGet_rowSet_ne (r : PRow) (c c2 : String) (v : PVal) (h : c ≠ c2) :
    rowGet (rowSet r c v) c2 = rowGet r c2 := by
  unfold rowSet
  by_cases hh : rowHas r c
  · rw [if_pos hh]
    exact rowGet_replaceAll_ne r c c2 v h
  · rw [if_neg hh]
    exact rowGet_append_ne r c c2 v h

theorem rowHas_rowSet_self (r : PRow) (c : String) (v : PVal) :
    rowHas (rowSet r c v) c = true := by
  unfold rowSet
  by_cases h : rowHas r c
  · rw [if_pos h, rowHas_replaceAll]
    exact h
  · rw [if_neg h, rowHas_append]
    simp [rowHas]

theorem mem_rowSet_entry (r : PRow) (c : String) (v : PVal) :
    ∀ p ∈ rowSet r c v, p.1 = c → p.2 = v := by
  intro p hp hpc
  unfold rowSet at hp
  by_cases h : rowHas r c
  · rw [if_pos h] at hp
    exact mem_replaceAll_entry r c v p hp hpc
  · rw [if_neg h] at hp
    rcases List.mem_append.mp hp with hp | hp
    · exact absurd hpc (rowHas_false_forall r c (by simpa using h) p hp)
    · rw [List.mem_singleton.mp hp]

theorem mem_rowSet_ne (r : PRow) (c : String) (v : PVal) :
    ∀ p ∈ rowSet r c v, p.1 ≠ c → p ∈ r := by
  intro p hp hpc
  unfold rowSet at hp
  by_cases h : rowHas r c
  · rw [if_pos h] at hp
    exact mem_replaceAll_ne r c v p hp hpc
  · rw [if_neg h] at hp
    rcases List.mem_append.mp hp with hp | hp
    · exact hp
    · rw [List.mem_singleton.mp hp] at hpc
      exact absurd rfl hpc

theorem rowSet_eq_self (r : PRow) (c : String) (v : PVal)
    (hhas : rowHas r c = true) (h : ∀ p ∈ r, p.1 = c → p.2 = v) :
    rowSet r c v = r := by
  unfold rowSet
  rw [if_pos hhas]
  exact replaceAll_eq_self r c v h

theorem valToString_idem (x : PVal) :
    valToString (valToString x) = valToString x := by
  cases x <;> rfl

theorem valToString_eq_na (x : PVal) : valToString x = .na ↔ x = .na := by
  cases x <;> simp [valToString]

/-- The state a dedup key column is in after `deduplicate_posts` has
processed it: the row carries the column, all its entries agree, and the
value is a fixed point of the string cast. -/
def CastOK (r : PRow) (k : String) : Prop :=
  rowHas r k = true ∧ (∀ p ∈ r, p.1 = k → p.2 = rowGet r k) ∧
    valToString (rowGet r k) = rowGet r k

theorem castCell_castOK (r : PRow) (k : String) : CastOK (castCell r k) k := by
  unfold castCell CastOK
  refine ⟨rowHas_rowSet_self r k _, ?_, ?_⟩
  · intro p hp hpk
    rw [rowGet_rowSet_self]
    exact mem_rowSet_entry r k _ p hp hpk
  · rw [rowGet_rowSet_self]
    exact valToString_idem _

theorem rowHas_rowSet_of (r : PRow) (c c2 : String) (v : PVal)
    (h : rowHas r c2 = true) : rowHas (rowSet r c v) c2 = true := by
  unfold rowSet
  by_cases hh : rowHas r c
  · rw [if_pos hh, rowHas_replaceAll]
    exact h
  · rw [if_neg hh, rowHas_append, h, Bool.true_or]

theorem castOK_rowSet_ne (r : PRow) (k c : String) (v : PVal) (hne : k ≠ c)
    (h : CastOK r k) : CastOK (rowSet r c v) k := by
  rcases h with ⟨h1, h2, h3⟩
  refine ⟨rowHas_rowSet_of r c k v h1, ?_, ?_⟩
  · intro p hp hpk
    rw [rowGet_rowSet_ne r c k v (fun hc => hne hc.symm)]
    exact h2 p (mem_rowSet_ne r c v p hp (hpk ▸ hne)) hpk
  · rw [rowGet_rowSet_ne r c k v (fun hc => hne hc.symm)]
    exact h3

theorem castOK_castCell (r : PRow) (k c : String) (h : CastOK r k) :
    CastOK (castCell r c) k := by
  by_cases hk : k = c
  · subst hk
    exact castCell_castOK r k
  · exact castOK_rowSet_ne r k c _ hk h

theorem castCell_eq_self (r : PRow) (k : String) (h : CastOK r k) :
    castCell r k = r := by
  rcases h with ⟨h1, h2, h3⟩
  unfold castCell
  rw [h3]
  exact rowSet_eq_self r k _ h1 h2

/-! Lemmas about keep-first deduplication. -/

theorem mem_dropDupFirst (keys : List String) (l : List PRow)
    (seen : List (List PVal)) :
    ∀ r ∈ dropDupFirst keys l seen, r ∈ l := by
  induction l generalizing seen with
  | nil => intro r hr; simp [dropDupFirst] at hr
  | cons r0 rs ih =>
    intro r hr
    simp only [dropDupFirst] at hr
    by_cases hm : keyTuple keys r0 ∈ seen
    · rw [if_pos hm] at hr
      exact List.mem_cons_of_mem _ (ih _ r hr)
    · rw [if_neg hm] at hr
      rcases List.mem_cons.mp hr with hr | hr
      · rw [hr]; exact List.mem_cons_self _ _
      · exact List.mem_cons_of_mem _ (ih _ r hr)

theorem keyTuple_dropDupFirst_not_seen (keys : List String) (l : List PRow)
    (seen : List (List PVal)) :
    ∀ r ∈ dropDupFirst keys l seen, keyTuple keys r ∉ seen := by
  induction l generalizing seen with
  | nil => intro r hr; simp [dropDupFirst] at hr
  | cons r0 rs ih =>
    intro r hr
    simp only [dropDupFirst] at hr
    by_cases hm : keyTuple keys r0 ∈ seen
    · rw [if_pos hm] at hr
      exact ih _ r hr
    · rw [if_neg hm] at hr
      rcases List.mem_cons.mp hr with hr | hr
      · rw [hr]; exact hm
      · intro hs
        exact ih _ r hr (List.mem_cons_of_mem _ hs)

theorem pairwise_dropDupFirst (keys : List String) (l : List PRow)
    (seen : List (List PVal)) :
    List.Pairwise (fun a b => keyTuple keys a ≠ keyTuple keys b)
      (dropDupFirst keys l seen) := by
  induction l generalizing seen with
  | nil => simp [dropDupFirst]
  | cons r0 rs ih =>
    simp only [dropDupFirst]
    by_cases hm : keyTuple keys r0 ∈ seen
    · rw [if_pos hm]
      exact ih _
    · rw [if_neg hm]
      refine List.Pairwise.cons ?_ (ih _)
      intro b hb
      have := keyTuple_dropDupFirst_not_seen keys rs _ b hb
      intro he
      exact this (he ▸ List.mem_cons_self _ _)

theorem dropDupFirst_eq_self (keys : List String) (l : List PRow)
    (seen : List (List PVal))
    (h1 : ∀ r ∈ l, keyTuple keys r ∉ seen)
    (h2 : List.Pairwise (fun a b => keyTuple keys a ≠ keyTuple keys b) l) :
    dropDupFirst keys l seen = l := by
  induction l generalizing seen with
  | nil => rfl
  | cons r0 rs ih =>
    simp only [dropDupFirst]
    rw [if_neg (h1 r0 (List.mem_cons_self _ _))]
    congr 1
    rcases List.pairwise_cons.mp h2 with ⟨hhead, htail⟩
    apply ih _ _ htail
    intro r hr
    simp only [List.mem_cons]
    rintro (he | he)
    · exact (hhead r hr).symm he
    · exact h1 r (List.mem_cons_of_mem _ hr) he

theorem filter_dropDupFirst (keys : List String) (t : List PVal)
    (l : List PRow) (seen : List (List PVal)) :
    (dropDupFirst keys l seen).filter (fun r => decide (keyTuple keys r = t))
      = if t ∈ seen then []
        else (l.filter (fun r => decide (keyTuple keys r = t))).take 1 := by
  induction l generalizing seen with
  | nil => simp [dropDupFirst]
  | cons r0 rs ih =>
    simp only [dropDupFirst]
    by_cases hm : keyTuple keys r0 ∈ seen
    · rw [if_pos hm, ih]
      by_cases hts : t ∈ seen
      · simp [hts]
      · have hne : ¬keyTuple keys r0 = t := fun he => hts (he ▸ hm)
        simp [hts, List.filter_cons, hne]
    · rw [if_neg hm]
      by_cases ht : keyTuple keys r0 = t
      · subst ht
        rw [if_neg hm]
        have h2 := ih (keyTuple keys r0 :: seen)
        rw [if_pos (List.mem_cons_self _ _)] at h2
        have hpb : decide (keyTuple keys r0 = keyTuple keys r0) = true := by simp
        simp only [List.filter_cons, hpb, if_true, h2]
        simp
      · have hpb : decide (keyTuple keys r0 = t) = false := by simp [ht]
        simp only [List.filter_cons, hpb, Bool.false_eq_true, if_false]
        rw [ih]
        by_cases hts : t ∈ seen
        · rw [if_pos (List.mem_cons_of_mem _ hts), if_pos hts]
        · have hts2 : t ∉ keyTuple keys r0 :: seen := by
            intro hmem
            rcases List.mem_cons.mp hmem with he | he
            · exact ht he.symm
            · exact hts he
          rw [if_neg hts2, if_neg hts]

/-! Table-level lemmas about `deduplicate_posts`. -/

/-- Every dedup key has a column, and every row is cast-stable at every
key: the state `deduplicate_posts` leaves a nonempty frame in. -/
def TableKeysOK (df : DataFrame) (keys : List String) : Prop :=
  (∀ k ∈ keys, k ∈ df.cols) ∧ ∀ r ∈ df.rows, ∀ k ∈ keys, CastOK r k

theorem not_empty_iff (df : DataFrame) :
    df.empty = false ↔ df.rows ≠ [] ∧ df.cols ≠ [] := by
  rcases df with ⟨cols, rows⟩
  cases rows <;> cases cols <;> simp [DataFrame.empty]

theorem cols_ensureKey (df : DataFrame) (k : String) :
    (ensureKey df k).cols = if k ∈ df.cols then df.cols else df.cols ++ [k] := by
  unfold ensureKey castKeyColumn addKeyColumn
  by_cases h : k ∈ df.cols
  · rw [if_pos h, if_pos h]
  · rw [if_neg h, if_neg h]

theorem mem_cols_ensureKey (df : DataFrame) (k c : String) (h : c ∈ df.cols) :
    c ∈ (ensureKey df k).cols := by
  rw [cols_ensureKey]
  by_cases hk : k ∈ df.cols
  · rw [if_pos hk]; exact h
  · rw [if_neg hk]; exact List.mem_append_left _ h

theorem self_mem_cols_ensureKey (df : DataFrame) (k : String) :
    k ∈ (ensureKey df k).cols := by
  rw [cols_ensureKey]
  by_cases hk : k ∈ df.cols
  · rw [if_pos hk]; exact hk
  · rw [if_neg hk]; exact List.mem_append_right _ (List.mem_singleton_self _)

theorem mem_cols_foldl (keys : List String) (df : DataFrame) (c : String)
    (h : c ∈ df.cols) : c ∈ (keys.foldl ensureKey df).cols := by
  induction keys generalizing df with
  | nil => exact h
  | cons k rest ih => exact ih _ (mem_cols_ensureKey df k c h)

theorem keys_subset_cols_foldl (keys : List String) (df : DataFrame) :
    ∀ k ∈ keys, k ∈ (keys.foldl ensureKey df).cols := by
  induction keys generalizing df with
  | nil => intro k hk; simp at hk
  | cons k0 rest ih =>
    intro k hk
    rcases List.mem_cons.mp hk with hk | hk
    · subst hk
      exact mem_cols_foldl rest _ k (self_mem_cols_ensureKey df k)
    · exact ih _ k hk

theorem ensureKey_rows (df : DataFrame) (k : String) :
    (ensureKey df k).rows = ((addKeyColumn df k).rows).map (fun r => castCell r k) :=
  rfl

theorem allCastOK_ensureKey_self (df : DataFrame) (k : String) :
    ∀ r ∈ (ensureKey df k).rows, CastOK r k := by
  intro r hr
  rw [ensureKey_rows] at hr
  rcases List.mem_map.mp hr with ⟨r0, _, rfl⟩
  exact castCell_castOK r0 k

theorem allCastOK_ensureKey_pres (df : DataFrame) (k k1 : String)
    (h : ∀ r ∈ df.rows, CastOK r k1) :
    ∀ r ∈ (ensureKey df k).rows, CastOK r k1 := by
  intro r hr
  rw [ensureKey_rows] at hr
  rcases List.mem_map.mp hr with ⟨r0, hr0, rfl⟩
  by_cases hk : k1 = k
  · subst hk
    exact castCell_castOK r0 k1
  · apply castOK_castCell _ _ _
    unfold addKeyColumn at hr0
    by_cases hc : k ∈ df.cols
    · rw [if_pos hc] at hr0
      exact h r0 hr0
    · rw [if_neg hc] at hr0
      simp only [List.mem_map] at hr0
      rcases hr0 with ⟨r1, hr1, rfl⟩
      exact castOK_rowSet_ne r1 k1 k _ hk (h r1 hr1)

theorem allCastOK_foldl_pres (keys : List String) (df : DataFrame) (k1 : String)
    (h : ∀ r ∈ df.rows, CastOK r k1) :
    ∀ r ∈ (keys.foldl ensureKey df).rows, CastOK r k1 := by
  induction keys generalizing df with
  | nil => exact h
  | cons k rest ih => exact ih _ (allCastOK_ensureKey_pres df k k1 h)

theorem allCastOK_foldl_self (keys : List String) (df : DataFrame) :
    ∀ r ∈ (keys.foldl ensureKey df).rows, ∀ k ∈ keys, CastOK r k := by
  induction keys generalizing df with
  | nil => intro r _ k hk; simp at hk
  | cons k0 rest ih =>
    intro r hr k hk
    rcases List.mem_cons.mp hk with hk | hk
    · subst hk
      exact allCastOK_foldl_pres rest _ k
        (allCastOK_ensureKey_self df k) r hr
    · exact ih _ r hr k hk

theorem ensureKey_eq_self (df : DataFrame) (k : String) (hc : k ∈ df.cols)
    (hr : ∀ r ∈ df.rows, CastOK r k) : ensureKey df k = df := by
  unfold ensureKey addKeyColumn
  rw [if_pos hc]
  unfold castKeyColumn
  have hm : df.rows.map (fun r => castCell r k) = df.rows := by
    conv_rhs => rw [← List.map_id df.rows]
    exact List.map_congr_left (fun r hr0 => castCell_eq_self r k (hr r hr0))
  rw [hm]

theorem foldl_ensureKey_eq_self (keys : List String) (df : DataFrame)
    (h : TableKeysOK df keys) : keys.foldl ensureKey df = df := by
  induction keys with
  | nil => rfl
  | cons k rest ih =>
    rcases h with ⟨hc, hr⟩
    have he : ensureKey df k = df :=
      ensureKey_eq_self df k (hc k (List.mem_cons_self _ _))
        (fun r hr0 => hr r hr0 k (List.mem_cons_self _ _))
    show rest.foldl ensureKey (ensureKey df k) = df
    rw [he]
    exact ih ⟨fun k2 hk2 => hc k2 (List.mem_cons_of_mem _ hk2),
      fun r hr0 k2 hk2 => hr r hr0 k2 (List.mem_cons_of_mem _ hk2)⟩

theorem rows_foldl_ensureKey_ne_nil (keys : List String) (df : DataFrame)
    (h : df.rows ≠ []) : (keys.foldl ensureKey df).rows ≠ [] := by
  induction keys generalizing df with
  | nil => exact h
  | cons k rest ih =>
    apply ih
    rw [ensureKey_rows]
    intro hc
    apply h
    unfold addKeyColumn at hc
    by_cases hk : k ∈ df.cols
    · rw [if_pos hk] at hc
      exact List.map_eq_nil_iff.mp hc
    · rw [if_neg hk] at hc
      simp only [List.map_eq_nil_iff] at hc
      exact hc

theorem dropDupFirst_ne_nil (keys : List String) (l : List PRow)
    (h : l ≠ []) : dropDupFirst keys l [] ≠ [] := by
  cases l with
  | nil => exact absurd rfl h
  | cons r rs =>
    simp only [dropDupFirst, List.not_mem_nil, if_false, if_neg (List.not_mem_nil _)]
    exact List.cons_ne_nil _ _

theorem deduplicate_posts_spec (df : DataFrame) (keys : List String)
    (h : df.empty = false) :
    deduplicate_posts df keys =
      { keys.foldl ensureKey df with
        rows := dropDupFirst keys (keys.foldl ensureKey df).rows [] } := by
  unfold deduplicate_posts
  rw [if_neg (by rw [h]; exact Bool.false_ne_true)]

theorem tableKeysOK_dedup (df : DataFrame) (keys : List String)
    (h : df.empty = false) : TableKeysOK (deduplicate_posts df keys) keys := by
  rw [deduplicate_posts_spec df keys h]
  constructor
  · intro k hk
    exact keys_subset_cols_foldl keys df k hk
  · intro r hr k hk
    exact allCastOK_foldl_self keys df r
      (mem_dropDupFirst keys _ [] r hr) k hk

theorem dedup_not_empty (df : DataFrame) (keys : List String)
    (h : df.empty = false) : (deduplicate_posts df keys).empty = false := by
  rcases (not_empty_iff df).mp h with ⟨hr, hc⟩
  rw [deduplicate_posts_spec df keys h]
  apply (not_empty_iff _).mpr
  constructor
  · exact dropDupFirst_ne_nil keys _ (rows_foldl_ensureKey_ne_nil keys df hr)
  · rcases List.exists_mem_of_ne_nil _ hc with ⟨c, hcm⟩
    intro hnil
    have := mem_cols_foldl keys df c hcm
    rw [hnil] at this
    exact List.not_mem_nil c this

/-- C8: `deduplicate_posts` is idempotent: for every table and every key
list, applying it to its own output (same keys) returns an identical table —
same rows, same order, same values. -/
theorem deduplicate_posts_idempotent (df : DataFrame) (keys : List String) :
    deduplicate_posts (deduplicate_posts df keys) keys = deduplicate_posts df keys := by
  cases hE : df.empty with
  | true =>
    have h1 : deduplicate_posts df keys = df := by
      unfold deduplicate_posts
      rw [if_pos hE]
    rw [h1]
    exact h1
  | false =>
    have hOK := tableKeysOK_dedup df keys hE
    have hNE := dedup_not_empty df keys hE
    rw [deduplicate_posts_spec _ keys hNE,
      foldl_ensureKey_eq_self keys _ hOK]
    have hrows : dropDupFirst keys (deduplicate_posts df keys).rows []
        = (deduplicate_posts df keys).rows := by
      apply dropDupFirst_eq_self
      · intro r _
        exact List.not_mem_nil _
      · rw [deduplicate_posts_spec df keys hE]
        exact pairwise_dropDupFirst keys _ []
    rw [hrows]

/-! Lemmas about `merge_with_existing_data` on the proper branch. -/

theorem merge_ok (new ex : DataFrame) (p : FPath) (fs : FS)
    (hload : load_excel p fs = ex)
    (hn : new.empty = false) (he : ex.empty = false) :
    merge_with_existing_data new (.path p) fs =
      .ok (deduplicate_posts (concatDF ex new) DEDUP_KEYS) := by
  unfold merge_with_existing_data
  rw [if_neg (by rw [hn]; exact Bool.false_ne_true)]
  simp only [load_excel_dyn, hload]
  rw [if_neg (by rw [he]; exact Bool.false_ne_true)]

theorem concat_not_empty (a b : DataFrame) (ha : a.empty = false)
    (_hb : b.empty = false) : (concatDF a b).empty = false := by
  rcases (not_empty_iff a).mp ha with ⟨har, hac⟩
  apply (not_empty_iff _).mpr
  constructor
  · intro h
    exact har (List.append_eq_nil.mp h).1
  · intro h
    exact hac (List.append_eq_nil.mp h).1

theorem foldl_pid (df : DataFrame) (h : "post_id" ∈ df.cols) :
    DEDUP_KEYS.foldl ensureKey df
      = { df with rows := df.rows.map (fun r => castCell r "post_id") } := by
  show ensureKey df "post_id" = _
  unfold ensureKey addKeyColumn
  rw [if_pos h]
  rfl

theorem dedup_pid_spec (df : DataFrame) (hne : df.empty = false)
    (hcol : "post_id" ∈ df.cols) :
    deduplicate_posts df DEDUP_KEYS =
      { df with
        rows := dropDupFirst DEDUP_KEYS (df.rows.map (fun r => castCell r "post_id")) [] } := by
  rw [deduplicate_posts_spec df _ hne, foldl_pid df hcol]

theorem filter_of_map {α β : Type} (f : α → β) (p : β → Bool) (l : List α) :
    (l.map f).filter p = (l.filter (fun a => p (f a))).map f := by
  induction l with
  | nil => rfl
  | cons a t ih =>
    simp only [List.map_cons, List.filter_cons]
    by_cases h : p (f a) = true
    · rw [if_pos h, if_pos h, List.map_cons, ih]
    · rw [if_neg h, if_neg h, ih]

theorem keyTuple_pid (r : PRow) :
    keyTuple DEDUP_KEYS r = [rowGet r "post_id"] := rfl

theorem rowGet_castCell_self (r : PRow) (k : String) :
    rowGet (castCell r k) k = valToString (rowGet r k) :=
  rowGet_rowSet_self r k _

/-- After single-key dedup on `post_id`, the rows whose (string-cast)
`post_id` equals `t` are exactly the cast image of the first input row whose
cast `post_id` equals `t`. -/
theorem dedup_pid_filter (df : DataFrame) (t : PVal)
    (hne : df.empty = false) (hcol : "post_id" ∈ df.cols) :
    (deduplicate_posts df DEDUP_KEYS).rows.filter
        (fun r => decide (valToString (rowGet r "post_id") = t))
      = ((df.rows.filter
            (fun r => decide (valToString (rowGet r "post_id") = t))).take 1).map
          (fun r => castCell r "post_id") := by
  rw [dedup_pid_spec df hne hcol]
  show (dropDupFirst DEDUP_KEYS (df.rows.map (fun r => castCell r "post_id")) []).filter
      (fun r => decide (valToString (rowGet r "post_id") = t)) = _
  have hconv : ∀ r ∈ (df.rows.map (fun r => castCell r "post_id")),
      (decide (valToString (rowGet r "post_id") = t))
        = (decide (keyTuple DEDUP_KEYS r = [t])) := by
    intro r hr
    rcases List.mem_map.mp hr with ⟨r0, _, rfl⟩
    apply decide_eq_decide.mpr
    rw [keyTuple_pid, rowGet_castCell_self, valToString_idem]
    constructor
    · intro h
      rw [h]
    · intro h
      injection h
  have hsub := mem_dropDupFirst DEDUP_KEYS
    (df.rows.map (fun r => castCell r "post_id")) []
  rw [List.filter_congr (fun r hr => hconv r (hsub r hr)),
    filter_dropDupFirst, if_neg (List.not_mem_nil _),
    ← List.filter_congr hconv,
    filter_of_map]
  have hinner : ∀ r0 ∈ df.rows,
      (decide (valToString (rowGet (castCell r0 "post_id") "post_id") = t))
        = (decide (valToString (rowGet r0 "post_id") = t)) := by
    intro r0 _
    rw [rowGet_castCell_self, valToString_idem]
  rw [List.filter_congr hinner, List.map_take]

/-- C3: for every non-empty new batch and non-empty existing dataset,
`merge_with_existing_data` concatenates the existing rows before the new
rows and deduplicates on `post_id` keeping the first occurrence, so for
every `post_id` value present in the inputs the unique surviving row is the
first existing row with that (string-cast) `post_id`, with all of its cells
other than the key — in particular the enrichment cells `post_summary` and
`cluster_1..3` — preserved. -/
theorem merge_preserves_existing_enrichment (new ex : DataFrame) (p : FPath)
    (fs : FS) (t : PVal) (e0 : PRow)
    (hload : load_excel p fs = ex)
    (hn : new.empty = false) (he : ex.empty = false)
    (hcol : "post_id" ∈ ex.cols)
    (hfirst : (ex.rows.filter
      (fun r => decide (valToString (rowGet r "post_id") = t))).head? = some e0) :
    merge_with_existing_data new (.path p) fs =
      .ok (deduplicate_posts (concatDF ex new) DEDUP_KEYS) ∧
    (deduplicate_posts (concatDF ex new) DEDUP_KEYS).rows.filter
        (fun r => decide (valToString (rowGet r "post_id") = t))
      = [castCell e0 "post_id"] ∧
    ∀ c, c ≠ "post_id" → rowGet (castCell e0 "post_id") c = rowGet e0 c := by
  refine ⟨merge_ok new ex p fs hload hn he, ?_, ?_⟩
  · have hconc : (concatDF ex new).empty = false := concat_not_empty ex new he hn
    have hcol2 : "post_id" ∈ (concatDF ex new).cols := List.mem_append_left _ hcol
    rw [dedup_pid_filter _ t hconc hcol2]
    show ((((ex.rows ++ new.rows).filter
      (fun r => decide (valToString (rowGet r "post_id") = t))).take 1).map
        (fun r => castCell r "post_id")) = _
    rw [List.filter_append]
    rcases hex : ex.rows.filter
        (fun r => decide (valToString (rowGet r "post_id") = t)) with _ | ⟨a, tl⟩
    · rw [hex] at hfirst
      simp at hfirst
    · rw [hex] at hfirst
      simp only [List.head?_cons, Option.some.injEq] at hfirst
      subst hfirst
      rfl
  · intro c hc
    exact rowGet_rowSet_ne e0 "post_id" c _ (fun h2 => hc h2.symm)

/-- C6: both the dashboard (`load_data`) and the summary generator
(`load_and_filter_data`) compute, for any reference end date, the current
window as the 7 inclusive days ending at it and the previous window as the 7
inclusive days ending the day before the current window starts: the windows
agree between the two files, are each exactly 7 days, are contiguous and
non-overlapping, and the previous window is
`[current_start - 7, current_start - 1]`; for end date 2025-10-07 the
current window is [2025-10-01, 2025-10-07] and the previous window is
[2025-09-24, 2025-09-30]. -/
theorem period_windows_adjacent :
    (∀ e : ℤ,
      dashboard_current_window e = summary_current_window e ∧
      dashboard_previous_window e = summary_previous_window e ∧
      (dashboard_current_window e).2 - (dashboard_current_window e).1 + 1 = 7 ∧
      (dashboard_previous_window e).2 - (dashboard_previous_window e).1 + 1 = 7 ∧
      (dashboard_previous_window e).2 + 1 = (dashboard_current_window e).1 ∧
      (dashboard_previous_window e).2 < (dashboard_current_window e).1 ∧
      dashboard_previous_window e
        = ((dashboard_current_window e).1 - 7, (dashboard_current_window e).1 - 1)) ∧
    dashboard_current_window (daysFromCivil 2025 10 7)
      = (daysFromCivil 2025 10 1, daysFromCivil 2025 10 7) ∧
    dashboard_previous_window (daysFromCivil 2025 10 7)
      = (daysFromCivil 2025 9 24, daysFromCivil 2025 9 30) := by
  refine ⟨?_, by decide, by decide⟩
  intro e
  unfold dashboard_current_window dashboard_previous_window
    summary_current_window summary_previous_window
  dsimp only
  refine ⟨rfl, rfl, by omega, by omega, by omega, by omega, ?_⟩
  have h1 : e - 6 - 1 - 6 = e - 6 - 7 := by omega
  rw [h1]

/-- C9: when the file at the path exists but its bytes are not readable as
an Excel workbook, `load_excel` returns the empty frame instead of raising,
and the result is indistinguishable from the one for a path with no file at
all. -/
theorem load_excel_corrupt_eq_missing (fs : FS) (p : FPath) (b : ℕ)
    (h : fs.lookup p = some (.corrupt b)) :
    load_excel p fs = emptyDF ∧
    load_excel p { dirs := fs.dirs, files := [] } = emptyDF ∧
    load_excel p fs = load_excel p { dirs := fs.dirs, files := [] } := by
  have h1 : load_excel p fs = emptyDF := by
    unfold load_excel
    rw [h]
  exact ⟨h1, rfl, by rw [h1]; rfl⟩

def fsCorrupt : FS := ⟨[["data"]], [(masterPath, .corrupt 7)]⟩

theorem load_excel_corrupt_eq_missing_witness :
    load_excel masterPath fsCorrupt = emptyDF ∧
    load_excel masterPath { dirs := fsCorrupt.dirs, files := [] } = emptyDF ∧
    load_excel masterPath fsCorrupt
      = load_excel masterPath { dirs := fsCorrupt.dirs, files := [] } :=
  load_excel_corrupt_eq_missing fsCorrupt masterPath 7 (by decide)

def dfFirstSave : DataFrame := ⟨["post_id"], [[("post_id", PVal.str "A")]]⟩

def dfSecondSave : DataFrame := ⟨["post_id"], [[("post_id", PVal.str "B")]]⟩

/-- C4 (code bug): starting from a fresh filesystem, two successive
`save_with_backup` calls to the configured master path leave NO file at all
under `<parent>/backups` — `backup_existing_data` writes into a `backups`
directory that no code path ever creates, so `shutil.copy2` raises and the
`except` clause swallows the failure — while the second save still
overwrites the master file; the promised backup of the pre-save state does
not exist. -/
theorem save_with_backup_no_backup_created :
    ((save_with_backup dfSecondSave masterPath "20251012_090000"
        (save_with_backup dfFirstSave masterPath "20251005_090000"
          ⟨[], []⟩)).files.filter
        (fun f => decide (f.1.dir = masterPath.dir ++ ["backups"]))) = [] ∧
    (save_with_backup dfSecondSave masterPath "20251012_090000"
        (save_with_backup dfFirstSave masterPath "20251005_090000"
          ⟨[], []⟩)).lookup masterPath = some (.excel dfSecondSave) := by
  decide

def newScrapePath : FPath := ⟨["data"], "facebook_new_scrape", ".xlsx"⟩

def newScrapeDf : DataFrame :=
  ⟨["post_id"], [[("post_id", PVal.str "A")], [("post_id", PVal.str "B")]]⟩

def masterDfA : DataFrame := ⟨["post_id"], [[("post_id", PVal.str "A")]]⟩

def fsAppend : FS :=
  ⟨[["data"]], [(newScrapePath, .excel newScrapeDf), (masterPath, .excel masterDfA)]⟩

/-- C7 (code bug): on exactly the input of the claim — existing master
holding post A, new batch holding posts A and B — `append_new_data_to_master`
raises AttributeError at its merge call: line 52 passes
`(existing_df, new_df)` into `merge_with_existing_data(new_posts,
existing_path)`, handing a DataFrame where a Path is expected, so execution
never reaches the new-post mask and no row is flagged for labeling (the
claim expects exactly post B to be flagged). -/
theorem append_new_data_attribute_error :
    append_new_data_to_master newScrapePath (fun df => df) fsAppend
      = .error .attributeError := by
  rfl

def curWeekRows : List StatRow := [⟨"AKROPOLIS | Vilnius", "p1", 1, 0, 0, 5⟩]

/-- C2 (counterexample): with a previous week of 0 and a positive current
week, `calculate_comparison_stats` reports a 0 percent change where the
three-way rule of the spec reports exactly 100 — the rule does not hold at
that computation site. -/
theorem calculate_comparison_stats_counterexample :
    (calculate_comparison_stats curWeekRows [] ["AKROPOLIS | Vilnius"]).engagement_change = 0 ∧
    spec_pct_change (aggregateWeek ["AKROPOLIS | Vilnius"] curWeekRows).engagement
      (aggregateWeek ["AKROPOLIS | Vilnius"] []).engagement = 100 ∧
    (0 : ℚ) ≠ 100 := by
  refine ⟨?_, ?_, by norm_num⟩
  · norm_num [calculate_comparison_stats, aggregateWeek, curWeekRows]
  · norm_num [spec_pct_change, aggregateWeek, curWeekRows]

/-- C2 (amended): the three-way percentage-change rule holds, metric by
metric, in the per-brand dashboard performance tabs and in
`get_brand_stats`; `calculate_comparison_stats`, however, reports 0 for any
metric whose previous-week value is 0, even when the current week is
positive. -/
theorem pct_change_three_way_rule (dfc dfp : List StatRow) (b : String)
    (brands : List String) :
    brand_tab_change_stats dfc dfp b
        = spec_change_stats (aggregateWeek [b] dfc) (aggregateWeek [b] dfp) ∧
    get_brand_stats dfc dfp b
        = spec_change_stats (aggregateWeek [b] dfc) (aggregateWeek [b] dfp) ∧
    ((aggregateWeek brands dfp).posts = 0 →
      (calculate_comparison_stats dfc dfp brands).posts_change = 0) ∧
    ((aggregateWeek brands dfp).engagement = 0 →
      (calculate_comparison_stats dfc dfp brands).engagement_change = 0) ∧
    ((aggregateWeek brands dfp).likes = 0 →
      (calculate_comparison_stats dfc dfp brands).likes_change = 0) ∧
    ((aggregateWeek brands dfp).comments = 0 →
      (calculate_comparison_stats dfc dfp brands).comments_change = 0) ∧
    ((aggregateWeek brands dfp).shares = 0 →
      (calculate_comparison_stats dfc dfp brands).shares_change = 0) := by
  refine ⟨rfl, rfl, ?_, ?_, ?_, ?_, ?_⟩ <;>
    (intro h; simp [calculate_comparison_stats, h])

theorem pct_change_three_way_rule_witness :
    brand_tab_change_stats curWeekRows [] "AKROPOLIS | Vilnius"
        = spec_change_stats
            (aggregateWeek ["AKROPOLIS | Vilnius"] curWeekRows)
            (aggregateWeek ["AKROPOLIS | Vilnius"] []) ∧
    get_brand_stats curWeekRows [] "AKROPOLIS | Vilnius"
        = spec_change_stats
            (aggregateWeek ["AKROPOLIS | Vilnius"] curWeekRows)
            (aggregateWeek ["AKROPOLIS | Vilnius"] []) ∧
    (calculate_comparison_stats curWeekRows [] ["AKROPOLIS | Vilnius"]).posts_change = 0 ∧
    (calculate_comparison_stats curWeekRows [] ["AKROPOLIS | Vilnius"]).engagement_change = 0 :=
  ⟨(pct_change_three_way_rule curWeekRows [] "AKROPOLIS | Vilnius"
      ["AKROPOLIS | Vilnius"]).1,
   (pct_change_three_way_rule curWeekRows [] "AKROPOLIS | Vilnius"
      ["AKROPOLIS | Vilnius"]).2.1,
   (pct_change_three_way_rule curWeekRows [] "AKROPOLIS | Vilnius"
      ["AKROPOLIS | Vilnius"]).2.2.1 (by decide),
   (pct_change_three_way_rule curWeekRows [] "AKROPOLIS | Vilnius"
      ["AKROPOLIS | Vilnius"]).2.2.2.1 (by decide)⟩

def scrapedBatch : RawEngTable :=
  { hasLikes := true, hasComments := true, hasShares := true,
    hasTotal := false, hasRate := false, hasReach := false,
    rows := [{ likes := .num 10, comments := .num 2, shares := .num 1,
               total_engagement := .na, engagement_rate := .na, reach := .na }] }

/-- C1 (counterexample): a post with 10 likes, 2 comments and 1 share leaves
the transformation pipeline with `total_engagement = 13`: the weighted value
21 written by `ensure_standard_columns` is overwritten by the plain sum of
`calculate_engagement_metrics`, the last engagement computation of
`process_social_media_data`. -/
theorem process_engagement_counterexample :
    (process_engagement scrapedBatch).rows.map (fun r => r.total_engagement)
      = [PFloat.num 13] ∧
    PFloat.num 13 ≠ PFloat.num 21 := by
  constructor
  · norm_num [process_engagement, calculate_engagement_metrics,
      ensure_standard_columns_eng, scrapedBatch, pvalToQ0, PFloat.add, PFloat.mul]
  · intro h
    injection h with h2
    norm_num at h2

/-- C1 (amended): for every table, after the engagement step of the
transformation pipeline every row satisfies
`total_engagement = likes + comments + shares` — the unweighted sum; the
weighted formula `likes*1 + comments*3 + shares*5` is applied only inside
`ensure_standard_columns` when the column is absent, and is then
overwritten. -/
theorem process_engagement_total_unweighted (t : RawEngTable) :
    ∀ r ∈ (process_engagement t).rows,
      r.total_engagement = (r.likes.add r.comments).add r.shares := by
  intro r hr
  have hrows : (process_engagement t).rows
      = (ensure_standard_columns_eng t).rows.map
          (fun r => { r with
            total_engagement := (r.likes.add r.comments).add r.shares }) := rfl
  rw [hrows] at hr
  rcases List.mem_map.mp hr with ⟨r0, _, rfl⟩
  rfl

def processedRow : EngRow :=
  { likes := .num 10, comments := .num 2, shares := .num 1,
    total_engagement := .num 13, engagement_rate := .num 0, reach := .nan }

theorem process_engagement_total_unweighted_witness :
    processedRow.total_engagement
      = (processedRow.likes.add processedRow.comments).add processedRow.shares :=
  process_engagement_total_unweighted scrapedBatch processedRow (by
    norm_num [process_engagement, calculate_engagement_metrics,
      ensure_standard_columns_eng, scrapedBatch, pvalToQ0, PFloat.add, PFloat.mul,
      processedRow])

theorem PFloat.div_nan (x : PFloat) : x.div .nan = .nan := by
  cases x <;> rfl

def reachZeroTab : EngTable :=
  { hasLikes := true, hasComments := true, hasShares := true,
    hasTotal := false, hasRate := false, hasReach := true,
    rows := [{ likes := .num 5, comments := .num 0, shares := .num 0,
               total_engagement := .num 0, engagement_rate := .num 0,
               reach := .num 0 }] }

/-- C5 (counterexample): a row with `reach = 0` and positive engagement
leaves `calculate_engagement_metrics` with `engagement_rate = +inf`: the
division produces an infinity that `.fillna(0)` does not replace, so the
result is not 0. -/
theorem engagement_rate_counterexample :
    (calculate_engagement_metrics reachZeroTab).rows.map
        (fun r => r.engagement_rate) = [PFloat.posInf] ∧
    PFloat.posInf ≠ PFloat.num 0 := by
  constructor
  · norm_num [calculate_engagement_metrics, reachZeroTab, PFloat.add,
      PFloat.div, PFloat.mul, PFloat.fillna0, PFloat.round2]
  · intro h
    cases h

/-- C5 (amended): on a table carrying likes, comments, shares and reach
columns, `calculate_engagement_metrics` sets
`engagement_rate = ((total_engagement / reach) * 100).fillna(0).round(2)`
over the freshly computed total; a missing (NaN) reach yields exactly 0, a
zero reach with zero total yields exactly 0 (0/0 is NaN and is filled), but
a zero reach with positive total yields +infinity, not 0. -/
theorem engagement_rate_reach_cases (t : EngTable)
    (hl : t.hasLikes = true) (hc : t.hasComments = true)
    (hs : t.hasShares = true) (hre : t.hasReach = true) :
    ∀ r ∈ (calculate_engagement_metrics t).rows, ∃ r0 ∈ t.rows,
      r.reach = r0.reach ∧
      r.total_engagement = (r0.likes.add r0.comments).add r0.shares ∧
      r.engagement_rate
        = (((((r0.likes.add r0.comments).add r0.shares).div r0.reach).mul
            (.num 100)).fillna0).round2 ∧
      (r0.reach = .nan → r.engagement_rate = .num 0) ∧
      (r0.reach = .num 0 →
        (r0.likes.add r0.comments).add r0.shares = .num 0 →
        r.engagement_rate = .num 0) ∧
      (∀ q : ℚ, 0 < q → r0.reach = .num 0 →
        (r0.likes.add r0.comments).add r0.shares = .num q →
        r.engagement_rate = .posInf) := by
  intro r hr
  unfold calculate_engagement_metrics at hr
  simp only [hl, hc, hs, hre, Bool.and_self, Bool.and_true, Bool.true_and,
    if_true] at hr
  rw [List.map_map] at hr
  rcases List.mem_map.mp hr with ⟨r0, hr0, rfl⟩
  refine ⟨r0, hr0, rfl, rfl, rfl, ?_, ?_, ?_⟩
  · intro h
    show (((((r0.likes.add r0.comments).add r0.shares).div r0.reach).mul
      (.num 100)).fillna0).round2 = PFloat.num 0
    rw [h, PFloat.div_nan]
    norm_num [PFloat.mul, PFloat.fillna0, PFloat.round2, roundHalfEven]
  · intro h1 h2
    show (((((r0.likes.add r0.comments).add r0.shares).div r0.reach).mul
      (.num 100)).fillna0).round2 = PFloat.num 0
    rw [h1, h2]
    norm_num [PFloat.div, PFloat.mul, PFloat.fillna0, PFloat.round2,
      roundHalfEven]
  · intro q hq h1 h2
    show (((((r0.likes.add r0.comments).add r0.shares).div r0.reach).mul
      (.num 100)).fillna0).round2 = PFloat.posInf
    rw [h1, h2]
    norm_num [PFloat.div, PFloat.mul, PFloat.fillna0, PFloat.round2, hq,
      hq.ne.symm]

def reachNanTab : EngTable :=
  { hasLikes := true, hasComments := true, hasShares := true,
    hasTotal := false, hasRate := false, hasReach := true,
    rows := [{ likes := .num 3, comments := .num 1, shares := .num 0,
               total_engagement := .num 0, engagement_rate := .num 0,
               reach := .nan }] }

def rateZeroRow : EngRow :=
  { likes := .num 3, comments := .num 1, shares := .num 0,
    total_engagement := .num 4, engagement_rate := .num 0, reach := .nan }

theorem engagement_rate_reach_cases_witness :
    ∃ r0 ∈ reachNanTab.rows, rateZeroRow.reach = r0.reach ∧
      rateZeroRow.total_engagement = (r0.likes.add r0.comments).add r0.shares ∧
      rateZeroRow.engagement_rate
        = (((((r0.likes.add r0.comments).add r0.shares).div r0.reach).mul
            (.num 100)).fillna0).round2 ∧
      (r0.reach = .nan → rateZeroRow.engagement_rate = .num 0) ∧
      (r0.reach = .num 0 →
        (r0.likes.add r0.comments).add r0.shares = .num 0 →
        rateZeroRow.engagement_rate = .num 0) ∧
      (∀ q : ℚ, 0 < q → r0.reach = .num 0 →
        (r0.likes.add r0.comments).add r0.shares = .num q →
        rateZeroRow.engagement_rate = .posInf) :=
  engagement_rate_reach_cases reachNanTab rfl rfl rfl rfl rateZeroRow (by
    norm_num [calculate_engagement_metrics, reachNanTab, rateZeroRow,
      PFloat.add, PFloat.div, PFloat.mul, PFloat.fillna0, PFloat.round2,
      roundHalfEven])

def existingMaster : DataFrame :=
  ⟨["post_id", "cluster_1"],
   [[("post_id", PVal.str "A"), ("cluster_1", PVal.str "X")]]⟩

def rescrapedBatch : DataFrame :=
  ⟨["post_id", "cluster_1"],
   [[("post_id", PVal.str "A"), ("cluster_1", PVal.na)]]⟩

def fsMaster : FS := ⟨[["data"]], [(masterPath, .excel existingMaster)]⟩

def firstExistingRow : PRow :=
  [("post_id", PVal.str "A"), ("cluster_1", PVal.str "X")]

theorem merge_preserves_existing_enrichment_witness :
    merge_with_existing_data rescrapedBatch (.path masterPath) fsMaster =
      .ok (deduplicate_posts (concatDF existingMaster rescrapedBatch) DEDUP_KEYS) ∧
    (deduplicate_posts (concatDF existingMaster rescrapedBatch) DEDUP_KEYS).rows.filter
        (fun r => decide (valToString (rowGet r "post_id") = PVal.str "A"))
      = [castCell firstExistingRow "post_id"] ∧
    ∀ c, c ≠ "post_id" →
      rowGet (castCell firstExistingRow "post_id") c = rowGet firstExistingRow c :=
  merge_preserves_existing_enrichment rescrapedBatch existingMaster masterPath
    fsMaster (PVal.str "A") firstExistingRow (by decide) (by decide) (by decide)
    (by decide) (by decide)

theorem dedup_filter_na_len (df : DataFrame) (hne : df.empty = false) :
    ((deduplicate_posts df DEDUP_KEYS).rows.filter
      (fun r => decide (rowGet r "post_id" = PVal.na))).length ≤ 1 := by
  rw [deduplicate_posts_spec df _ hne]
  have hpt : ∀ r ∈ dropDupFirst DEDUP_KEYS (DEDUP_KEYS.foldl ensureKey df).rows [],
      (decide (rowGet r "post_id" = PVal.na))
        = (decide (keyTuple DEDUP_KEYS r = [PVal.na])) := by
    intro r _
    apply decide_eq_decide.mpr
    rw [keyTuple_pid]
    constructor
    · intro h
      rw [h]
    · intro h
      injection h
  show (List.filter _ (dropDupFirst DEDUP_KEYS (DEDUP_KEYS.foldl ensureKey df).rows [])).length ≤ 1
  rw [List.filter_congr hpt, filter_dropDupFirst, if_neg (List.not_mem_nil _),
    List.length_take]
  exact min_le_left _ _

/-- C10 (amended): `deduplicate_posts` does treat missing `post_id` values
as equal to each other: in every nonempty frame carrying the column, the
deduplicated rows with a null `post_id` are exactly the (key-cast) first
input row with a null `post_id`; and every dataset produced by the merge
path proper of `merge_with_existing_data` — both inputs non-empty — holds at
most one null-`post_id` row.  The early-return branches of the merge (empty
new batch, or empty/absent existing data) return their input with no
deduplication at all and can keep several null-`post_id` rows, as the
counterexample shows. -/
theorem dedup_null_post_id :
    (∀ df : DataFrame, df.empty = false → "post_id" ∈ df.cols →
      (deduplicate_posts df DEDUP_KEYS).rows.filter
          (fun r => decide (rowGet r "post_id" = PVal.na))
        = ((df.rows.filter
              (fun r => decide (rowGet r "post_id" = PVal.na))).take 1).map
            (fun r => castCell r "post_id")) ∧
    (∀ (new ex : DataFrame) (p : FPath) (fs : FS),
      load_excel p fs = ex → new.empty = false → ex.empty = false →
      ∀ out, merge_with_existing_data new (.path p) fs = .ok out →
        (out.rows.filter
          (fun r => decide (rowGet r "post_id" = PVal.na))).length ≤ 1) := by
  constructor
  · intro df hne hcol
    have hptAll : ∀ r : PRow,
        (decide (rowGet r "post_id" = PVal.na))
          = (decide (valToString (rowGet r "post_id") = PVal.na)) := by
      intro r
      apply decide_eq_decide.mpr
      exact (valToString_eq_na _).symm
    rw [List.filter_congr (fun r _ => hptAll r),
      List.filter_congr (fun r (_ : r ∈ df.rows) => hptAll r),
      dedup_pid_filter df PVal.na hne hcol]
  · intro new ex p fs hload hn he out hout
    rw [merge_ok new ex p fs hload hn he] at hout
    have hout2 : out = deduplicate_posts (concatDF ex new) DEDUP_KEYS :=
      (Except.ok.injEq _ _).mp hout.symm
    rw [hout2]
    exact dedup_filter_na_len _ (concat_not_empty ex new he hn)

def batchTwoNulls : DataFrame :=
  ⟨["post_id", "content"],
   [[("post_id", PVal.na), ("content", PVal.str "x")],
    [("post_id", PVal.na), ("content", PVal.str "y")]]⟩

/-- C10 (counterexample): with no existing data on disk,
`merge_with_existing_data` returns the new batch with no deduplication, so a
dataset it produced holds two rows with a null `post_id` — the claim that
every produced dataset holds at most one is false on that branch. -/
theorem merge_two_null_post_ids :
    merge_with_existing_data batchTwoNulls (.path masterPath) ⟨[], []⟩
      = .ok batchTwoNulls ∧
    1 < (batchTwoNulls.rows.filter
      (fun r => decide (rowGet r "post_id" = PVal.na))).length := by
  exact ⟨rfl, by decide⟩

def dedupNullInput : DataFrame :=
  ⟨["post_id"], [[("post_id", PVal.na)], [("post_id", PVal.na)]]⟩

theorem dedup_null_post_id_witness :
    ((deduplicate_posts dedupNullInput DEDUP_KEYS).rows.filter
        (fun r => decide (rowGet r "post_id" = PVal.na))
      = ((dedupNullInput.rows.filter
            (fun r => decide (rowGet r "post_id" = PVal.na))).take 1).map
          (fun r => castCell r "post_id")) ∧
    ((deduplicate_posts (concatDF existingMaster rescrapedBatch)
        DEDUP_KEYS).rows.filter
      (fun r => decide (rowGet r "post_id" = PVal.na))).length ≤ 1 :=
  ⟨dedup_null_post_id.1 dedupNullInput (by decide) (by decide),
   dedup_null_post_id.2 rescrapedBatch existingMaster masterPath fsMaster
     (by decide) (by decide) (by decide)
     (deduplicate_posts (concatDF existingMaster rescrapedBatch) DEDUP_KEYS)
     (merge_ok rescrapedBatch existingMaster masterPath fsMaster (by decide)
       (by decide) (by decide))⟩
